import Mathlib

/-!
Verification of the feature-engineering stage of the ethereum fraud-detection
pipeline (`src/feature_engineering.py`), via a shallow embedding.

A pandas `DataFrame` is modelled as a row index (a list of integer labels)
together with an ordered list of named columns; a cell holds `Option Rat`,
with `none` standing for a missing value (NaN). The pandas primitives the
code uses — column selection `df[c]`, `df.drop(columns=[c])`,
`Series.reset_index(drop=True)`, `pd.DataFrame(array, columns=...)` and
`pd.concat([...], axis=1)` (outer alignment on the row index) — are embedded
directly. `sklearn.preprocessing.PowerTransformer().fit_transform` fits and
transforms each feature column independently (one Yeo-Johnson lambda and one
standardisation per column); it is modelled by a per-column function
`pt : List (Option Rat) → List (Option Rat)` over which the theorems
quantify, with its shape contract (`fit_transform` returns an array with one
row per input row) taken as an explicit hypothesis where a result needs it.
-/

namespace FraudDetection

/-- A pandas Series: a name, a row index and the cell values (`none` = NaN). -/
structure Series where
  name : String
  index : List Int
  values : List (Option Rat)
deriving DecidableEq

/-- A pandas DataFrame: a row index and ordered named columns. -/
structure DataFrame where
  index : List Int
  cols : List (String × List (Option Rat))
deriving DecidableEq

/-- The default RangeIndex 0, 1, ..., n-1 that pandas attaches to a freshly
built frame or to a series after `reset_index(drop=True)`. -/
def defaultIndex (n : Nat) : List Int :=
  (List.range n).map Int.ofNat

/-- The ordered list of column names of a frame. -/
def DataFrame.colNames (df : DataFrame) : List String :=
  df.cols.map Prod.fst

/-- Column selection `df[c]`: the first column named `c` as a Series carrying
the frame's index; `none` models the KeyError pandas raises when `c` is
absent. -/
def DataFrame.getCol (df : DataFrame) (c : String) : Option Series :=
  match df.cols.find? (fun p => p.1 == c) with
  | some p => some ⟨p.1, df.index, p.2⟩
  | none => none

/-- `df.drop(columns=[c])` with the default `inplace=False`: a new frame
without column `c`; `none` models the KeyError raised when `c` is absent. -/
def DataFrame.dropColumn (df : DataFrame) (c : String) : Option DataFrame :=
  if df.cols.any (fun p => p.1 == c) then
    some ⟨df.index, df.cols.filter (fun p => p.1 != c)⟩
  else none

/-- `s.reset_index(drop=True)`: same values, default RangeIndex, old index
labels discarded. -/
def Series.resetIndexDrop (s : Series) : Series :=
  ⟨s.name, defaultIndex s.values.length, s.values⟩

/-- Position of the first occurrence of a label in an index. -/
def findPos (a : Int) : List Int → Option Nat
  | [] => none
  | b :: bs => if b == a then some 0 else (findPos a bs).map (fun k => k + 1)

/-- Reindex one column from `oldIdx` to `newIdx`, filling missing labels with
`none` (pandas fills NaN when aligning). -/
def reindexCol (oldIdx newIdx : List Int) (v : List (Option Rat)) : List (Option Rat) :=
  newIdx.map (fun i =>
    match findPos i oldIdx with
    | some k => v.getD k none
    | none => none)

/-- Outer union of two row indexes, keeping first-seen order (pandas outer
join for non-duplicated indexes). -/
def indexUnion (a b : List Int) : List Int :=
  a ++ b.filter (fun i => !(a.contains i))

/-- `pd.concat([a, s], axis=1)`: columns of `a` followed by the series `s`,
all aligned on the outer union of the two row indexes. -/
def pdConcatAxis1 (a : DataFrame) (s : Series) : DataFrame :=
  let idx := indexUnion a.index s.index
  ⟨idx,
   a.cols.map (fun p => (p.1, reindexCol a.index idx p.2)) ++
     [(s.name, reindexCol s.index idx s.values)]⟩

/-- Row count of a rectangular column block, as `pd.DataFrame(ndarray, ...)`
sees it: the length of the first column (0 when there are no columns). -/
def nRowsOfCols (cols : List (String × List (Option Rat))) : Nat :=
  match cols with
  | [] => 0
  | c :: _ => c.2.length

/-- `pd.DataFrame(array, columns=...)`: a frame over the given columns with a
fresh default RangeIndex. -/
def mkFrameDefaultIndex (cols : List (String × List (Option Rat))) : DataFrame :=
  ⟨defaultIndex (nRowsOfCols cols), cols⟩

/-- Failure of a transformation; `missingColumn` models the KeyError raised
by `df[target_column]` when the target column is absent (the spec's
MissingColumnError). -/
inductive TransformError where
  | missingColumn : String → TransformError
deriving DecidableEq

/-- `NormalizeFeatureEngineeringStrategy.__init__` stores the configured
feature list. -/
structure NormalizeFeatureEngineeringStrategy where
  features : List String
deriving DecidableEq

/-- `NormalizeFeatureEngineeringStrategy.apply_transformation`:
`y = df[target_column]`; `X = df.drop(columns=[target_column])`;
`X_norm = PowerTransformer().fit_transform(X=X)` (the per-column transform
`pt`); `X_norm_df = pd.DataFrame(X_norm, columns=X.columns)`;
`pd.concat([X_norm_df, y.reset_index(drop=True)], axis=1)`. Note the body
never consults `s.features`. -/
def NormalizeFeatureEngineeringStrategy.applyTransformation
    (pt : List (Option Rat) → List (Option Rat))
    (s : NormalizeFeatureEngineeringStrategy)
    (df : DataFrame) (targetColumn : String) : Except TransformError DataFrame :=
  match df.getCol targetColumn with
  | none => .error (.missingColumn targetColumn)
  | some y =>
    match df.dropColumn targetColumn with
    | none => .error (.missingColumn targetColumn)
    | some X =>
      let XNormCols := X.cols.map (fun p => (p.1, pt p.2))
      let XNormDf := mkFrameDefaultIndex XNormCols
      .ok (pdConcatAxis1 XNormDf y.resetIndexDrop)

/-- The names of the columns of the matrix `X` that `apply_transformation`
passes to `norm.fit_transform(X=X)`, i.e. the columns that are fitted and
transformed; `X = df.drop(columns=[target_column])`. -/
def fittedColumns (s : NormalizeFeatureEngineeringStrategy)
    (df : DataFrame) (targetColumn : String) : List String :=
  match df.dropColumn targetColumn with
  | some X => X.colNames
  | none => []

/-- The abstract `FeatureEngineeringStrategy` capability: one operation
taking a frame and a target-column name. -/
abbrev FeatureEngineeringStrategy :=
  DataFrame → String → Except TransformError DataFrame

/-- `FeatureEngineeringHandler`: holds the current strategy. -/
structure FeatureEngineeringHandler where
  strategy : FeatureEngineeringStrategy

/-- The `strategy` property setter: replaces the active strategy. -/
def FeatureEngineeringHandler.setStrategy
    (_h : FeatureEngineeringHandler) (s : FeatureEngineeringStrategy) :
    FeatureEngineeringHandler :=
  ⟨s⟩

/-- `FeatureEngineeringHandler.apply_transformation`: returns
`self._strategy.apply_transformation(df, target_column)`. -/
def FeatureEngineeringHandler.applyTransformation
    (h : FeatureEngineeringHandler) (df : DataFrame) (targetColumn : String) :
    Except TransformError DataFrame :=
  h.strategy df targetColumn

/-- The Normalize strategy packaged behind the abstract capability. -/
def NormalizeFeatureEngineeringStrategy.toStrategy
    (pt : List (Option Rat) → List (Option Rat))
    (s : NormalizeFeatureEngineeringStrategy) : FeatureEngineeringStrategy :=
  fun df targetColumn => s.applyTransformation pt df targetColumn

/-- The strategy's body threaded through the caller's frame as explicit
state: every primitive used — `df[target_column]`, `df.drop` with its
default `inplace=False`, `fit_transform` (which only reads `X`),
`pd.DataFrame`, `reset_index(drop=True)` and `pd.concat` — returns a new
object and leaves its input unmodified, so the state is only read. -/
def NormalizeFeatureEngineeringStrategy.applyTransformationST
    (pt : List (Option Rat) → List (Option Rat))
    (s : NormalizeFeatureEngineeringStrategy)
    (targetColumn : String) : StateM DataFrame (Except TransformError DataFrame) := do
  let df ← get
  match df.getCol targetColumn with
  | none => pure (.error (.missingColumn targetColumn))
  | some y =>
    match df.dropColumn targetColumn with
    | none => pure (.error (.missingColumn targetColumn))
    | some X =>
      let XNormCols := X.cols.map (fun p => (p.1, pt p.2))
      let XNormDf := mkFrameDefaultIndex XNormCols
      pure (.ok (pdConcatAxis1 XNormDf y.resetIndexDrop))

/-! Concrete data for witnesses and counterexamples. -/

/-- A concrete stand-in for the per-column transform in witnesses: replace
every cell (length-preserving, one output row per input row, like
`fit_transform`). -/
def ptEx : List (Option Rat) → List (Option Rat) :=
  fun v => v.map (fun _ => none)

/-- A small labeled frame with a non-default row index. -/
def exDf : DataFrame :=
  ⟨[7, 3], [("a", [some 1, some 2]), ("b", [some 5, some 6]), ("flag", [some 0, some 1])]⟩

/-- The label series `exDf["flag"]`. -/
def exY : Series :=
  ⟨"flag", [7, 3], [some 0, some 1]⟩

/-- A frame without the `flag` column. -/
def exDfNoFlag : DataFrame :=
  ⟨[0], [("a", [some 1])]⟩

/-- A strategy configured with the empty feature list. -/
def exStrat : NormalizeFeatureEngineeringStrategy := ⟨[]⟩

/-- A strategy configured with the non-empty feature list `["a"]`. -/
def exStratA : NormalizeFeatureEngineeringStrategy := ⟨["a"]⟩

/-! Helper lemmas. -/

theorem defaultIndex_length (n : Nat) : (defaultIndex n).length = n := by
  simp [defaultIndex]

theorem defaultIndex_nodup (n : Nat) : (defaultIndex n).Nodup := by
  refine (List.nodup_range n).map ?_
  intro a b h
  exact Int.ofNat.inj h

theorem indexUnion_self (idx : List Int) : indexUnion idx idx = idx := by
  unfold indexUnion
  have h : idx.filter (fun i => !(idx.contains i)) = [] := by
    refine List.filter_eq_nil_iff.mpr ?_
    intro a ha
    simp [List.elem_iff, ha]
  rw [h, List.append_nil]

theorem findPos_getElem (idx : List Int) (hnd : idx.Nodup) (j : Nat)
    (hj : j < idx.length) : findPos (idx[j]) idx = some j := by
  induction idx generalizing j with
  | nil => simp at hj
  | cons b bs ih =>
    cases j with
    | zero => simp [findPos]
    | succ k =>
      have hk : k < bs.length := by simpa using hj
      have hb : b ∉ bs := (List.nodup_cons.mp hnd).1
      have hmem : bs[k] ∈ bs := List.getElem_mem hk
      have hne : (b == bs[k]) = false := by
        apply beq_eq_false_iff_ne.mpr
        intro hcontra
        exact hb (hcontra ▸ hmem)
      have : (b :: bs)[k + 1] = bs[k] := by simp
      rw [this]
      simp only [findPos, hne, if_false]
      rw [ih (List.nodup_cons.mp hnd).2 k hk]
      rfl

theorem reindexCol_self (idx : List Int) (v : List (Option Rat))
    (hnd : idx.Nodup) (hlen : v.length = idx.length) :
    reindexCol idx idx v = v := by
  apply List.ext_getElem
  · simp [reindexCol, hlen]
  · intro j h1 h2
    have hj : j < idx.length := by simpa [reindexCol] using h1
    simp only [reindexCol, List.getElem_map]
    rw [findPos_getElem idx hnd j hj]
    exact List.getD_eq_getElem v none h2

theorem map_fst_filter_ne (cols : List (String × List (Option Rat))) (t : String) :
    (cols.filter (fun p => p.1 != t)).map Prod.fst
      = (cols.map Prod.fst).filter (fun c => c != t) := by
  induction cols with
  | nil => rfl
  | cons c cs ih =>
    by_cases h : (c.1 != t) = true
    · simp [List.filter_cons, h, ih]
    · simp only [Bool.not_eq_true] at h
      simp [List.filter_cons, h, ih]

/-- Closed form of a successful run of `apply_transformation`: under the
input contract (rectangular frame, distinct column names, target present,
at least one feature column) and the `fit_transform` shape contract, the
output is the pt-image of every non-target column, in order, followed by
the target column's values, over a default RangeIndex. -/
theorem applyTransformation_ok
    (pt : List (Option Rat) → List (Option Rat))
    (s : NormalizeFeatureEngineeringStrategy)
    (df : DataFrame) (t : String) (y : Series)
    (hpt : ∀ v, (pt v).length = v.length)
    (hrect : ∀ p ∈ df.cols, p.2.length = df.index.length)
    (hy : df.getCol t = some y)
    (hfeat : df.cols.filter (fun p => p.1 != t) ≠ []) :
    s.applyTransformation pt df t =
      .ok ⟨defaultIndex df.index.length,
           (df.cols.filter (fun p => p.1 != t)).map (fun p => (p.1, pt p.2))
             ++ [(t, y.values)]⟩ := by
  classical
  -- unpack the target column found by df[t]
  have hyKeep := hy
  unfold DataFrame.getCol at hy
  rcases hfd : df.cols.find? (fun q => q.1 == t) with _ | p
  · rw [hfd] at hy; cases hy
  rw [hfd] at hy
  have hy' : Series.mk p.1 df.index p.2 = y := by
    simpa using hy
  have hp1 : p.1 = t := by
    have := List.find?_some hfd
    simpa using this
  have hpm : p ∈ df.cols := List.mem_of_find?_eq_some hfd
  have hany : df.cols.any (fun q => q.1 == t) = true := by
    refine List.any_eq_true.mpr ⟨p, hpm, ?_⟩
    simp [hp1]
  have hplen : p.2.length = df.index.length := hrect p hpm
  -- the filtered feature block is nonempty
  have hdrop : df.dropColumn t
      = some ⟨df.index, df.cols.filter (fun q => q.1 != t)⟩ := by
    unfold DataFrame.dropColumn
    exact if_pos hany
  rcases hFne : df.cols.filter (fun q => q.1 != t) with _ | ⟨f0, F'⟩
  · exact absurd hFne hfeat
  have hf0 : f0 ∈ df.cols := by
    have hmem : f0 ∈ df.cols.filter (fun q => q.1 != t) := by
      rw [hFne]; exact List.mem_cons_self f0 F'
    exact List.mem_of_mem_filter hmem
  have hf0len : f0.2.length = df.index.length := hrect f0 hf0
  -- evaluate the body
  unfold NormalizeFeatureEngineeringStrategy.applyTransformation
  rw [hyKeep, hdrop]
  dsimp only
  rw [← hy']
  dsimp only [Series.resetIndexDrop]
  -- row count of the transformed block
  have hrows : nRowsOfCols
      ((df.cols.filter (fun q => q.1 != t)).map (fun q => (q.1, pt q.2)))
      = df.index.length := by
    rw [hFne]
    simp [nRowsOfCols, hpt, hf0len]
  unfold mkFrameDefaultIndex pdConcatAxis1
  dsimp only
  rw [hrows, hplen, indexUnion_self]
  refine congrArg Except.ok ?_
  refine congrArg (DataFrame.mk (defaultIndex df.index.length)) ?_
  congr 1
  · -- the feature block is unchanged by the self-reindex
    rw [List.map_map]
    refine List.map_congr_left ?_
    intro q hq
    have hq' : q ∈ df.cols := List.mem_of_mem_filter hq
    simp only [Function.comp]
    rw [reindexCol_self _ _ (defaultIndex_nodup _)
      (by rw [hpt, hrect q hq', defaultIndex_length])]
  · -- the label column is unchanged by the self-reindex
    rw [reindexCol_self _ _ (defaultIndex_nodup _)
      (by rw [hplen, defaultIndex_length])]
    rw [hp1]

/-- A present target column name is among the frame's column names. -/
theorem getCol_some_mem (df : DataFrame) (t : String) (y : Series)
    (hy : df.getCol t = some y) : t ∈ df.colNames := by
  unfold DataFrame.getCol at hy
  rcases hfd : df.cols.find? (fun q => q.1 == t) with _ | p
  · rw [hfd] at hy; cases hy
  have hp1 : p.1 = t := by
    have := List.find?_some hfd
    simpa using this
  have hpm : p ∈ df.cols := List.mem_of_find?_eq_some hfd
  exact List.mem_map.mpr ⟨p, hpm, hp1⟩

/-- A member of the frame's column names makes the `any` guard of
`df.drop(columns=[t])` succeed. -/
theorem any_of_mem_colNames (df : DataFrame) (t : String)
    (h : t ∈ df.colNames) : df.cols.any (fun q => q.1 == t) = true := by
  rcases List.mem_map.mp h with ⟨p, hpm, hp1⟩
  exact List.any_eq_true.mpr ⟨p, hpm, by simp [hp1]⟩

/-- No column of the transformed feature block is named after the target. -/
theorem find?_mapped_features_eq_none
    (pt : List (Option Rat) → List (Option Rat)) (df : DataFrame) (t : String) :
    ((df.cols.filter (fun q => q.1 != t)).map (fun q => (q.1, pt q.2))).find?
      (fun q => q.1 == t) = none := by
  refine List.find?_eq_none.mpr ?_
  intro x hx
  rcases List.mem_map.mp hx with ⟨r, hr, hxr⟩
  have hr1 : (r.1 != t) = true := (List.mem_filter.mp hr).2
  rw [← hxr]
  simpa using bne_iff_ne.mp hr1

/-! Claim theorems. -/

/-- C1 counterexample: with the non-empty configured feature list `["a"]`,
the column `"b"` (not in the list) is still passed to
`norm.fit_transform` and does not pass through unchanged, so the list does
not restrict which columns are fitted and transformed. -/
theorem feature_list_restriction_cex :
    exStratA.features ≠ [] ∧
    "b" ∉ exStratA.features ∧
    "b" ∈ fittedColumns exStratA exDf "flag" ∧
    (exStratA.applyTransformation ptEx exDf "flag").toOption.bind
        (fun out => (out.getCol "b").map Series.values)
      ≠ (exDf.getCol "b").map Series.values := by
  decide

/-- C1 (amended): the configured feature list is ignored —
`apply_transformation` never consults it, and for every dataset containing
the target column the columns fitted and transformed are exactly all
non-target columns, in their original order, whether the list is empty or
not. -/
theorem feature_list_ignored
    (pt : List (Option Rat) → List (Option Rat))
    (s1 s2 : NormalizeFeatureEngineeringStrategy)
    (df : DataFrame) (t : String)
    (h : t ∈ df.colNames) :
    fittedColumns s1 df t = df.colNames.filter (fun c => c != t) ∧
    s1.applyTransformation pt df t = s2.applyTransformation pt df t := by
  constructor
  · have hdrop : df.dropColumn t
        = some ⟨df.index, df.cols.filter (fun q => q.1 != t)⟩ := by
      unfold DataFrame.dropColumn
      exact if_pos (any_of_mem_colNames df t h)
    unfold fittedColumns
    rw [hdrop]
    exact map_fst_filter_ne df.cols t
  · rfl

/-- C1 (amended) witness: on a concrete frame the strategy configured with
`["a"]` fits all non-label columns and agrees with the strategy configured
with the empty list. -/
theorem feature_list_ignored_witness :
    fittedColumns exStratA exDf "flag"
        = exDf.colNames.filter (fun c => c != "flag") ∧
    exStratA.applyTransformation ptEx exDf "flag"
        = exStrat.applyTransformation ptEx exDf "flag" :=
  feature_list_ignored ptEx exStratA exStrat exDf "flag" (by decide)

/-- C2: for every valid labeled input, the output's target column holds the
input's target values element-wise and in the same row order — also when the
input's row index is non-default, because the label series is re-indexed to
the default range in the same order the rows had. -/
theorem normalize_preserves_labels
    (pt : List (Option Rat) → List (Option Rat))
    (s : NormalizeFeatureEngineeringStrategy)
    (df : DataFrame) (t : String) (y : Series)
    (hpt : ∀ v, (pt v).length = v.length)
    (hrect : ∀ p ∈ df.cols, p.2.length = df.index.length)
    (hy : df.getCol t = some y)
    (hfeat : df.cols.filter (fun p => p.1 != t) ≠ []) :
    (s.applyTransformation pt df t).toOption.bind
      (fun out => (out.getCol t).map Series.values) = some y.values := by
  rw [applyTransformation_ok pt s df t y hpt hrect hy hfeat]
  simp [Except.toOption, DataFrame.getCol, List.find?_append,
    find?_mapped_features_eq_none pt df t]

/-- C2 witness: a concrete frame with the non-default row index `[7, 3]`
keeps its label values `[0, 1]` in order. -/
theorem normalize_preserves_labels_witness :
    (exStrat.applyTransformation ptEx exDf "flag").toOption.bind
      (fun out => (out.getCol "flag").map Series.values) = some exY.values :=
  normalize_preserves_labels ptEx exStrat exDf "flag" exY
    (by intro v; simp [ptEx]) (by decide) (by decide) (by decide)

/-- C5: the output's column names are the input's names with the label moved
to the end and every feature column keeping its name; as a set they equal
the input's column names. -/
theorem column_set_invariance
    (pt : List (Option Rat) → List (Option Rat))
    (s : NormalizeFeatureEngineeringStrategy)
    (df : DataFrame) (t : String) (y : Series)
    (hpt : ∀ v, (pt v).length = v.length)
    (hrect : ∀ p ∈ df.cols, p.2.length = df.index.length)
    (hy : df.getCol t = some y)
    (hfeat : df.cols.filter (fun p => p.1 != t) ≠ []) :
    (s.applyTransformation pt df t).toOption.map DataFrame.colNames
      = some (df.colNames.filter (fun c => c != t) ++ [t]) ∧
    (df.colNames.filter (fun c => c != t) ++ [t]).toFinset
      = df.colNames.toFinset := by
  constructor
  · rw [applyTransformation_ok pt s df t y hpt hrect hy hfeat]
    simp only [Except.toOption, Option.map, DataFrame.colNames,
      List.map_append, List.map_map]
    rw [show (Prod.fst ∘ fun p : String × List (Option Rat) => (p.1, pt p.2))
        = (Prod.fst : String × List (Option Rat) → String) from rfl]
    rw [map_fst_filter_ne df.cols t]
    rfl
  · have ht : t ∈ df.colNames := getCol_some_mem df t y hy
    ext c
    simp only [List.toFinset_append, Finset.mem_union, List.mem_toFinset,
      List.mem_filter, List.mem_singleton, bne_iff_ne, ne_eq,
      decide_eq_true_eq]
    constructor
    · rintro (⟨hc, _⟩ | rfl)
      · exact hc
      · exact ht
    · intro hc
      by_cases hct : c = t
      · exact Or.inr hct
      · exact Or.inl ⟨hc, hct⟩

/-- C5 witness: on a concrete frame the output's names are
`["a", "b", "flag"]`, equal as a set to the input's names. -/
theorem column_set_invariance_witness :
    (exStrat.applyTransformation ptEx exDf "flag").toOption.map DataFrame.colNames
      = some (exDf.colNames.filter (fun c => c != "flag") ++ ["flag"]) ∧
    (exDf.colNames.filter (fun c => c != "flag") ++ ["flag"]).toFinset
      = exDf.colNames.toFinset :=
  column_set_invariance ptEx exStrat exDf "flag" exY
    (by intro v; simp [ptEx]) (by decide) (by decide) (by decide)

/-- C6: the output has exactly as many rows as the input (the per-column
transform returns one value per input row, and the label series is
re-indexed over the same row count). -/
theorem row_count_invariance
    (pt : List (Option Rat) → List (Option Rat))
    (s : NormalizeFeatureEngineeringStrategy)
    (df : DataFrame) (t : String) (y : Series)
    (hpt : ∀ v, (pt v).length = v.length)
    (hrect : ∀ p ∈ df.cols, p.2.length = df.index.length)
    (hy : df.getCol t = some y)
    (hfeat : df.cols.filter (fun p => p.1 != t) ≠ []) :
    (s.applyTransformation pt df t).toOption.map (fun out => out.index.length)
      = some df.index.length := by
  rw [applyTransformation_ok pt s df t y hpt hrect hy hfeat]
  simp [Except.toOption, defaultIndex_length]

/-- C6 witness: a concrete two-row frame yields a two-row output. -/
theorem row_count_invariance_witness :
    (exStrat.applyTransformation ptEx exDf "flag").toOption.map
      (fun out => out.index.length) = some exDf.index.length :=
  row_count_invariance ptEx exStrat exDf "flag" exY
    (by intro v; simp [ptEx]) (by decide) (by decide) (by decide)

/-- C10: whatever the input's row index, the output's row index is the
default consecutive range 0..n-1 — `pd.DataFrame(X_norm, ...)` and
`reset_index(drop=True)` both discard the original labels. -/
theorem output_has_default_index
    (pt : List (Option Rat) → List (Option Rat))
    (s : NormalizeFeatureEngineeringStrategy)
    (df : DataFrame) (t : String) (y : Series)
    (hpt : ∀ v, (pt v).length = v.length)
    (hrect : ∀ p ∈ df.cols, p.2.length = df.index.length)
    (hy : df.getCol t = some y)
    (hfeat : df.cols.filter (fun p => p.1 != t) ≠ []) :
    (s.applyTransformation pt df t).toOption.map DataFrame.index
      = some (defaultIndex df.index.length) := by
  rw [applyTransformation_ok pt s df t y hpt hrect hy hfeat]
  simp [Except.toOption]

/-- C10 witness: the concrete frame indexed `[7, 3]` yields an output
indexed `[0, 1]`; neither 7 nor 3 survives. -/
theorem output_has_default_index_witness :
    (exStrat.applyTransformation ptEx exDf "flag").toOption.map DataFrame.index
      = some (defaultIndex exDf.index.length) :=
  output_has_default_index ptEx exStrat exDf "flag" exY
    (by intro v; simp [ptEx]) (by decide) (by decide) (by decide)

/-- C3: for every dataset that does not contain the target column,
`apply_transformation` fails with the missing-column error (the KeyError of
`df[target_column]`, the spec's MissingColumnError) and produces no output
frame. -/
theorem missing_target_fails
    (pt : List (Option Rat) → List (Option Rat))
    (s : NormalizeFeatureEngineeringStrategy)
    (df : DataFrame) (t : String)
    (h : df.getCol t = none) :
    s.applyTransformation pt df t = .error (.missingColumn t) := by
  unfold NormalizeFeatureEngineeringStrategy.applyTransformation
  rw [h]

/-- C3 witness: on a concrete frame without a `flag` column the call fails
with the missing-column error. -/
theorem missing_target_fails_witness :
    exStrat.applyTransformation ptEx exDfNoFlag "flag"
      = .error (.missingColumn "flag") :=
  missing_target_fails ptEx exStrat exDfNoFlag "flag" (by decide)

/-- C4: the handler's `apply_transformation` returns exactly the held
strategy's result on the same arguments — including failures, since the
delegated call is returned as is — and performs no transformation logic of
its own. -/
theorem handler_delegates
    (h : FeatureEngineeringHandler) (df : DataFrame) (t : String) :
    h.applyTransformation df t = h.strategy df t := rfl

/-- C8: after `set_strategy` installs a new strategy, the handler's
`apply_transformation` is exactly the new strategy's transformation, and the
result does not depend on which strategy the handler held before. -/
theorem strategy_swap
    (h1 h2 : FeatureEngineeringHandler) (st : FeatureEngineeringStrategy)
    (df : DataFrame) (t : String) :
    (h1.setStrategy st).applyTransformation df t = st df t ∧
    (h1.setStrategy st).applyTransformation df t
      = (h2.setStrategy st).applyTransformation df t :=
  ⟨rfl, rfl⟩

/-- C9: `apply_transformation` is deterministic — two invocations with equal
configured feature lists, equal input frames and equal target names return
equal outputs (the body calls no randomness source; `PowerTransformer` is
fitted by a deterministic optimisation with no random state). -/
theorem apply_transformation_deterministic
    (pt : List (Option Rat) → List (Option Rat))
    (s1 s2 : NormalizeFeatureEngineeringStrategy)
    (df1 df2 : DataFrame) (t1 t2 : String)
    (hs : s1.features = s2.features) (hdf : df1 = df2) (ht : t1 = t2) :
    s1.applyTransformation pt df1 t1 = s2.applyTransformation pt df2 t2 := by
  cases s1; cases s2
  simp only [NormalizeFeatureEngineeringStrategy.mk.injEq] at hs ⊢
  subst hs; subst hdf; subst ht
  rfl

/-- C9 witness: two runs on the same concrete frame and configuration agree. -/
theorem apply_transformation_deterministic_witness :
    exStrat.applyTransformation ptEx exDf "flag"
      = exStrat.applyTransformation ptEx exDf "flag" :=
  apply_transformation_deterministic ptEx exStrat exStrat exDf exDf
    "flag" "flag" rfl rfl rfl

/-- C7: the call computes a new frame from the caller's frame without
modifying it: run with the input frame as explicit state, it returns the
pure result and leaves the state exactly as it was. -/
theorem apply_transformation_pure
    (pt : List (Option Rat) → List (Option Rat))
    (s : NormalizeFeatureEngineeringStrategy)
    (df : DataFrame) (t : String) :
    (s.applyTransformationST pt t).run df = (s.applyTransformation pt df t, df) := by
  unfold NormalizeFeatureEngineeringStrategy.applyTransformationST
  unfold NormalizeFeatureEngineeringStrategy.applyTransformation
  cases hdf : df.getCol t with
  | none => simp [hdf]
  | some y =>
    cases hX : df.dropColumn t with
    | none => simp [hdf, hX]
    | some X => simp [hdf, hX]

end FraudDetection
